import Mathlib

/-!
Shallow embedding of the log-streaming pipeline of the stagehand demo
repository: the `ActionLogger` relay (`logLineToString`, `parseLogLine`,
`ActionLogger.log` / `.error` / `.warn`), the scripted act route handler,
the fixed-message demo route handler, and the client-side stream viewer.
Machine strings are Lean `String`s, the byte-stream controller is modelled
as the ordered list of decoded strings enqueued to it, and the platform
`JSON.parse` / `JSON.stringify` builtins are modelled by an executable
JSON grammar over a `Json` value type (numbers as exact rationals).
-/

/-- JSON values as produced by the platform `JSON.parse` builtin; numbers
are modelled as exact rationals (sufficient for every input exercised by
this repository). -/
inductive Json where
  | null : Json
  | bool (b : Bool) : Json
  | num (q : Rat) : Json
  | str (s : String) : Json
  | arr (elems : List Json) : Json
  | obj (members : List (String × Json)) : Json
deriving Repr

/-- Skip JSON insignificant whitespace (space, tab, line feed, carriage
return). -/
def skipWs : List Char → List Char
  | [] => []
  | c :: cs =>
    if c = ' ' ∨ c = '\t' ∨ c = '\n' ∨ c = '\r' then skipWs cs else c :: cs

/-- Numeric value of one hexadecimal digit of a `\uXXXX` escape, if the
character is such a digit (codes 48–57 are `0`–`9`, 97–102 are `a`–`f`,
65–70 are `A`–`F`). -/
def hexDigitVal (c : Char) : Option Nat :=
  let n := c.toNat
  if 48 ≤ n ∧ n ≤ 57 then some (n - 48)
  else if 97 ≤ n ∧ n ≤ 102 then some (n - 87)
  else if 65 ≤ n ∧ n ≤ 70 then some (n - 55)
  else none

/-- Single-character JSON string escapes (everything but the `\uXXXX`
form, which is handled by the caller). -/
def escChar : Char → Option Char
  | '\\' => some '\\'
  | '"' => some '"'
  | 'n' => some '\n'
  | 't' => some '\t'
  | 'r' => some '\r'
  | 'b' => some (Char.ofNat 8)
  | 'f' => some (Char.ofNat 12)
  | '/' => some '/'
  | _ => none

/-- Parse the body of a JSON string literal (the opening quote already
consumed), returning the characters and the remaining input. -/
def parseStringBody : List Char → Option (List Char × List Char)
  | [] => none
  | '"' :: cs => some ([], cs)
  | '\\' :: 'u' :: a :: b :: c :: d :: cs =>
    match hexDigitVal a, hexDigitVal b, hexDigitVal c, hexDigitVal d with
    | some x1, some x2, some x3, some x4 =>
      (parseStringBody cs).map fun p =>
        (Char.ofNat (((x1 * 16 + x2) * 16 + x3) * 16 + x4) :: p.1, p.2)
    | _, _, _, _ => none
  | '\\' :: e :: cs =>
    match escChar e with
    | some ch => (parseStringBody cs).map fun p => (ch :: p.1, p.2)
    | none => none
  | c :: cs =>
    if c.toNat < 32 then none
    else (parseStringBody cs).map fun p => (c :: p.1, p.2)

/-- Longest prefix of decimal digits, with the remaining input. -/
def takeDigits : List Char → (List Char × List Char)
  | [] => ([], [])
  | c :: cs =>
    if c.isDigit then
      let p := takeDigits cs
      (c :: p.1, p.2)
    else ([], c :: cs)

/-- Numeric value of a list of decimal digits. -/
def digitsToNat (ds : List Char) : Nat :=
  ds.foldl (fun n c => n * 10 + (c.toNat - 48)) 0

/-- Parse an optional JSON fraction part `.digits`; a bare dot with no
digit is a syntax error. -/
def parseFrac : List Char → Option (List Char × List Char)
  | '.' :: r =>
    match takeDigits r with
    | ([], _) => none
    | (ds, rest) => some (ds, rest)
  | cs => some ([], cs)

/-- Parse an optional JSON exponent part `e|E [+|-] digits`. -/
def parseExp : List Char → Option (Int × List Char)
  | [] => some (0, [])
  | c :: r =>
    if c = 'e' ∨ c = 'E' then
      let sp : Int × List Char :=
        match r with
        | '+' :: t => (1, t)
        | '-' :: t => (-1, t)
        | t => (1, t)
      match takeDigits sp.2 with
      | ([], _) => none
      | (ds, rest) => some (sp.1 * Int.ofNat (digitsToNat ds), rest)
    else some (0, c :: r)

/-- Exact rational value of a parsed JSON number: sign, integer digits,
fraction digits and decimal exponent. -/
def jsonNumVal (neg : Bool) (ds fds : List Char) (e : Int) : Rat :=
  let m : Int := Int.ofNat (digitsToNat (ds ++ fds))
  let m : Int := if neg then -m else m
  let scale : Int := e - Int.ofNat fds.length
  if 0 ≤ scale then ((m * 10 ^ scale.toNat : Int) : Rat)
  else (m : Rat) / ((10 : Rat) ^ (-scale).toNat)

/-- Parse a JSON number (`-? int frac? exp?`, leading zeros rejected as in
the JSON grammar). -/
def parseNumberBody (cs : List Char) : Option (Rat × List Char) :=
  let sp : Bool × List Char :=
    match cs with
    | '-' :: r => (true, r)
    | _ => (false, cs)
  match takeDigits sp.2 with
  | ([], _) => none
  | (ds, cs2) =>
    if 1 < ds.length ∧ ds.head? = some '0' then none
    else
      match parseFrac cs2 with
      | none => none
      | some (fds, cs3) =>
        match parseExp cs3 with
        | none => none
        | some (e, cs4) => some (jsonNumVal sp.1 ds fds e, cs4)

mutual

/-- Parse one JSON value, with a fuel bound on nesting depth. -/
def parseJsonValue : Nat → List Char → Option (Json × List Char)
  | 0, _ => none
  | fuel + 1, cs =>
    match skipWs cs with
    | [] => none
    | 'n' :: 'u' :: 'l' :: 'l' :: r => some (.null, r)
    | 't' :: 'r' :: 'u' :: 'e' :: r => some (.bool true, r)
    | 'f' :: 'a' :: 'l' :: 's' :: 'e' :: r => some (.bool false, r)
    | '"' :: r =>
      (parseStringBody r).map fun p => (.str (String.mk p.1), p.2)
    | '\x7b' :: r =>
      (match skipWs r with
       | '\x7d' :: r2 => some (.obj [], r2)
       | _ => (parseJsonMembers fuel r).map fun p => (.obj p.1, p.2))
    | '[' :: r =>
      (match skipWs r with
       | ']' :: r2 => some (.arr [], r2)
       | _ => (parseJsonElements fuel r).map fun p => (.arr p.1, p.2))
    | rest => (parseNumberBody rest).map fun p => (.num p.1, p.2)

/-- Parse the members of a JSON object (at least one `key : value`,
comma-separated, up to and including the closing brace). -/
def parseJsonMembers : Nat → List Char → Option (List (String × Json) × List Char)
  | 0, _ => none
  | fuel + 1, cs =>
    match skipWs cs with
    | '"' :: r =>
      match parseStringBody r with
      | none => none
      | some (k, r2) =>
        match skipWs r2 with
        | ':' :: r3 =>
          match parseJsonValue fuel r3 with
          | none => none
          | some (v, r4) =>
            match skipWs r4 with
            | ',' :: r5 =>
              (parseJsonMembers fuel r5).map fun p =>
                ((String.mk k, v) :: p.1, p.2)
            | '\x7d' :: r5 => some ([(String.mk k, v)], r5)
            | _ => none
        | _ => none
    | _ => none

/-- Parse the elements of a JSON array (at least one value,
comma-separated, up to and including the closing bracket). -/
def parseJsonElements : Nat → List Char → Option (List Json × List Char)
  | 0, _ => none
  | fuel + 1, cs =>
    match parseJsonValue fuel cs with
    | none => none
    | some (v, r) =>
      match skipWs r with
      | ',' :: r2 => (parseJsonElements fuel r2).map fun p => (v :: p.1, p.2)
      | ']' :: r2 => some ([v], r2)
      | _ => none

end

/-- Model of the platform `JSON.parse` builtin: parse one JSON document,
requiring the whole input to be consumed; `none` models a thrown
`SyntaxError`. -/
def jsonParse (s : String) : Option Json :=
  match parseJsonValue (s.length + 1) s.data with
  | some (v, rest) =>
    match skipWs rest with
    | [] => some v
    | _ => none
  | none => none

example : jsonParse "\x7b\"a\":1\x7d" = some (.obj [("a", .num 1)]) := by rfl
example : jsonParse "not json" = none := by rfl
example : jsonParse "\x7b" = none := by rfl
example : jsonParse " [1, true, \"x\"] " =
    some (.arr [.num 1, .bool true, .str "x"]) := by rfl

/-- Lowercase hexadecimal digit for a value below 16, as used by
`JSON.stringify` control-character escapes. -/
def hexDigitStr (n : Nat) : String :=
  if n < 10 then String.singleton (Char.ofNat (48 + n))
  else String.singleton (Char.ofNat (97 + (n - 10)))

/-- Escape one character as `JSON.stringify` does inside a string
literal. -/
def jsonEscapeChar (c : Char) : String :=
  if c = '"' then "\\\""
  else if c = '\\' then "\\\\"
  else if c = '\n' then "\\n"
  else if c = '\r' then "\\r"
  else if c = '\t' then "\\t"
  else if c = Char.ofNat 8 then "\\b"
  else if c = Char.ofNat 12 then "\\f"
  else if c.toNat < 32 then
    "\\u00" ++ hexDigitStr (c.toNat / 16) ++ hexDigitStr (c.toNat % 16)
  else String.singleton c

/-- Serialize a string as a JSON string literal, as `JSON.stringify`
does. -/
def jsonQuote (s : String) : String :=
  "\"" ++ String.join (s.data.map jsonEscapeChar) ++ "\""

/-- One auxiliary entry of a stagehand `LogLine`: a raw string value with
a type tag (the tag `"object"` marks the value as JSON text). -/
structure AuxEntry where
  value : String
  type : String
deriving Repr, DecidableEq

/-- A stagehand `LogLine` as consumed by the relay: optional timestamp,
category, message, and an optional auxiliary mapping from keys to tagged
entries (a JS object, modelled as an association list in property
insertion order). -/
structure LogLine where
  timestamp : Option String
  category : String
  message : String
  auxiliary : Option (List (String × AuxEntry))
deriving Repr, DecidableEq

/-- Model of `JSON.stringify` applied to one auxiliary entry object. -/
def stringifyAuxEntry (e : AuxEntry) : String :=
  "\x7b\"value\":" ++ jsonQuote e.value ++ ",\"type\":" ++ jsonQuote e.type ++ "\x7d"

/-- Model of `JSON.stringify` applied to the auxiliary mapping (keys in
property insertion order). -/
def stringifyAuxiliary (aux : List (String × AuxEntry)) : String :=
  "\x7b" ++
    String.intercalate ","
      (aux.map fun kv => jsonQuote kv.1 ++ ":" ++ stringifyAuxEntry kv.2) ++
    "\x7d"

/-- Timestamp used by `logLineToString`: the event's own timestamp unless
it is absent or empty (JS falsiness of `logLine.timestamp`), in which case
the current time `now` (`new Date().toISOString()`) is used. -/
def tsOf (now : String) (l : LogLine) : String :=
  match l.timestamp with
  | some t => if t = "" then now else t
  | none => now

/-- Failure of the line formatter: the error branch of `logLineToString`
reads `logLine.auxiliary.trace.value` unconditionally, which throws a
`TypeError` when the auxiliary mapping has no `trace` entry. -/
inductive FormatError where
  | traceMissing : FormatError
deriving Repr, DecidableEq

/-- Shared prefix `<timestamp>::[stagehand:<category>] <message>` of both
line templates of `logLineToString`. -/
def lineHeader (now : String) (l : LogLine) : String :=
  tsOf now l ++ "::[stagehand:" ++ l.category ++ "] " ++ l.message

/-- The non-error template of `logLineToString`:
`<header> <stringified-auxiliary-or-empty>`. -/
def auxFormatLine (now : String) (l : LogLine) : String :=
  lineHeader now l ++ " " ++
    (match l.auxiliary with
     | some aux => stringifyAuxiliary aux
     | none => "")

/-- Embedding of `logLineToString` from the relay module: if the
auxiliary mapping carries an `error` entry the error template
`<header>\n <error-value>\n <trace-value>` is produced (throwing when the
`trace` entry is absent); otherwise the auxiliary template is produced. -/
def logLineToString (now : String) (l : LogLine) : Except FormatError String :=
  match l.auxiliary with
  | some aux =>
    match aux.lookup "error" with
    | some errEntry =>
      match aux.lookup "trace" with
      | some traceEntry =>
        .ok (lineHeader now l ++ "\n " ++ errEntry.value ++ "\n " ++ traceEntry.value)
      | none => .error .traceMissing
    | none => .ok (auxFormatLine now l)
  | none => .ok (auxFormatLine now l)

/-- A parsed auxiliary value: either a decoded JSON value (for entries
tagged `"object"`) or the raw string passed through. -/
inductive AuxValue where
  | json (j : Json) : AuxValue
  | str (s : String) : AuxValue
deriving Repr

/-- Failure of `parseLogLine`: `JSON.parse` threw on the value of an
`"object"`-tagged auxiliary entry. -/
inductive ParseError where
  | badJson (raw : String) : ParseError
deriving Repr, DecidableEq

/-- Per-entry transform of `parseLogLine`:
`entry.type === "object" ? JSON.parse(entry.value) : entry.value`. -/
def parseAuxEntry (e : AuxEntry) : Except ParseError AuxValue :=
  if e.type = "object" then
    match jsonParse e.value with
    | some j => .ok (.json j)
    | none => .error (.badJson e.value)
  else .ok (.str e.value)

/-- Apply an `Except`-valued function to every element of a list, failing
at the first failure (the evaluation order of `Array.prototype.map` with a
throwing callback). -/
def exceptMap {α β ε : Type} (f : α → Except ε β) : List α → Except ε (List β)
  | [] => .ok []
  | a :: as =>
    match f a with
    | .error e => .error e
    | .ok b =>
      match exceptMap f as with
      | .error e => .error e
      | .ok bs => .ok (b :: bs)

/-- The retained form of a log event (`LogLineAction`): the event's
fields with `auxiliary` cleared and a pre-parsed auxiliary mapping. -/
structure LogLineAction where
  timestamp : Option String
  category : String
  message : String
  auxiliary : Option (List (String × AuxEntry))
  parsedAuxiliary : Option (List (String × AuxValue))
deriving Repr

/-- Embedding of `parseLogLine`: copy the event, clear `auxiliary`, and
map each auxiliary entry through `parseAuxEntry` (a thrown `JSON.parse`
error aborts the whole call). -/
def parseLogLine (l : LogLine) : Except ParseError LogLineAction :=
  match l.auxiliary with
  | none =>
    .ok { timestamp := l.timestamp, category := l.category,
          message := l.message, auxiliary := none, parsedAuxiliary := none }
  | some aux =>
    match exceptMap (fun kv => (parseAuxEntry kv.2).map fun v => (kv.1, v)) aux with
    | .error e => .error e
    | .ok pa =>
      .ok { timestamp := l.timestamp, category := l.category,
            message := l.message, auxiliary := none, parsedAuxiliary := some pa }

/-- State of one `ActionLogger` instance together with its output channel:
the `initialized` flag and the presence of the bound controller and
encoder references, the retained `logs` sequence, and `sent`, the ordered
list of strings enqueued to the byte-stream controller (each encoded to
bytes by the `TextEncoder`; we keep the decoded text). -/
structure LoggerState where
  initialized : Bool
  hasController : Bool
  hasEncoder : Bool
  logs : List LogLineAction
  sent : List String

/-- A freshly constructed `ActionLogger`: not initialized, no controller
or encoder bound, empty retained sequence, nothing sent. -/
def LoggerState.new : LoggerState :=
  { initialized := false, hasController := false, hasEncoder := false,
    logs := [], sent := [] }

/-- Errors a relay operation can raise: the `"ActionLogger not
initialized"` guard of `log`, a formatting throw, or a `JSON.parse` throw
inside `parseLogLine`. -/
inductive LogError where
  | notInitialized : LogError
  | format (e : FormatError) : LogError
  | parse (e : ParseError) : LogError
deriving Repr, DecidableEq

/-- Embedding of `ActionLogger.init`: bind the controller and encoder and
set the `initialized` flag (the stagehand handle is not control-relevant
and is not modelled). -/
def LoggerState.init (st : LoggerState) : LoggerState :=
  { st with hasController := true, hasEncoder := true, initialized := true }

/-- Embedding of `ActionLogger.log`. Effects in source order: throw
`"ActionLogger not initialized"` when controller or encoder is unbound;
format the line (a formatting throw happens at the `console.log` call,
before anything is enqueued); enqueue the encoded line plus a trailing
line feed; parse the event and append it to the retained sequence (a parse
throw happens after the enqueue, so the line is sent but not retained).
The returned state reflects every effect performed before a throw. -/
def LoggerState.log (now : String) (l : LogLine) (st : LoggerState) :
    LoggerState × Option LogError :=
  if st.hasController ∧ st.hasEncoder then
    match logLineToString now l with
    | .error e => (st, some (.format e))
    | .ok line =>
      let st1 := { st with sent := st.sent ++ [line ++ "\n"] }
      match parseLogLine l with
      | .error e => (st1, some (.parse e))
      | .ok p => ({ st1 with logs := st1.logs ++ [p] }, none)
  else (st, some .notInitialized)

/-- Embedding of `ActionLogger.error`: format the line for the console
side channel (a formatting throw aborts the call), then parse the event
and append it to the retained sequence; the output channel is never
touched and there is no attachment guard. -/
def LoggerState.error (now : String) (l : LogLine) (st : LoggerState) :
    LoggerState × Option LogError :=
  match logLineToString now l with
  | .error e => (st, some (.format e))
  | .ok _ =>
    match parseLogLine l with
    | .error e => (st, some (.parse e))
    | .ok p => ({ st with logs := st.logs ++ [p] }, none)

/-- Embedding of `ActionLogger.warn`: identical to `ActionLogger.error`
except for the console severity, which is not modelled. -/
def LoggerState.warn (now : String) (l : LogLine) (st : LoggerState) :
    LoggerState × Option LogError :=
  match logLineToString now l with
  | .error e => (st, some (.format e))
  | .ok _ =>
    match parseLogLine l with
    | .error e => (st, some (.parse e))
    | .ok p => ({ st with logs := st.logs ++ [p] }, none)

/-- Run a sequence of events through `ActionLogger.log` in emission
order; each call's state effects persist whether or not that call threw
(each engine log callback invocation is a separate call). -/
def runLog (now : String) (ls : List LogLine) (st : LoggerState) : LoggerState :=
  ls.foldl (fun s l => (LoggerState.log now l s).1) st

/-- Outcome of one awaited step of the scripted act route (engine
initialization, `page.goto`, `act`, `extract`): either it settles
successfully or it rejects with an error message. -/
inductive StepResult where
  | ok : StepResult
  | err (msg : String) : StepResult
deriving Repr, DecidableEq

/-- The outcomes of the four awaited steps of one run of the scripted act
route's `start` callback, in program order. -/
structure ActScript where
  initResult : StepResult
  gotoResult : StepResult
  actResult : StepResult
  extractResult : StepResult
deriving Repr, DecidableEq

/-- Terminal state of the byte stream produced by the act route:
`closed` when `controller.close()` was invoked, `errored` when the
`start` callback's promise rejected (the platform then errors the
stream). -/
inductive StreamOutcome where
  | closed : StreamOutcome
  | errored (msg : String) : StreamOutcome
deriving Repr, DecidableEq

/-- Control-flow embedding of the `GET` handler of the scripted act route
(`src/app/api/act/route.ts`): the `start` callback awaits engine
initialization, `page.goto`, `act` and `extract` in order with no
`try`/`catch`, and reaches `controller.close()` only after all four steps
settle successfully; a rejection at any step propagates out of `start`
uncaught, so the controller is never closed on that run. -/
def actRouteRun (s : ActScript) : StreamOutcome :=
  match s.initResult with
  | .err m => .errored m
  | .ok =>
    match s.gotoResult with
    | .err m => .errored m
    | .ok =>
      match s.actResult with
      | .err m => .errored m
      | .ok =>
        match s.extractResult with
        | .err m => .errored m
        | .ok => .closed

/-- One operation performed on the demo route's byte-stream controller:
enqueue an encoded string, wait (`setTimeout`), or close. -/
inductive ChannelOp where
  | enqueue (payload : String) : ChannelOp
  | wait (ms : Nat) : ChannelOp
  | close : ChannelOp
deriving Repr, DecidableEq

/-- The hardcoded messages of the demo streaming route. -/
def demoMessages : List String :=
  ["Hello", "This is", "a streaming", "response", "from Next.js!"]

/-- Embedding of the demo route's `start` callback
(`app/api/stream/route.ts`): for each message in order, enqueue the
message plus a line feed and wait one second; after the loop, close the
controller. -/
def demoStart : List ChannelOp :=
  (demoMessages.flatMap fun m => [.enqueue (m ++ "\n"), .wait 1000]) ++ [.close]

/-- Payload of a channel operation, when it carries one. -/
def ChannelOp.payload : ChannelOp → Option String
  | .enqueue s => some s
  | _ => none

/-- Whether a channel operation is the close of the controller. -/
def ChannelOp.isClose : ChannelOp → Bool
  | .close => true
  | _ => false

/-- Split a character sequence at every occurrence of the separator, as
`String.prototype.split` does (`"a\n".split("\n")` gives `["a", ""]`). -/
def splitOnChar (c : Char) : List Char → List (List Char)
  | [] => [[]]
  | x :: xs =>
    if x = c then [] :: splitOnChar c xs
    else
      match splitOnChar c xs with
      | [] => [[x]]
      | h :: t => (x :: h) :: t

/-- Whether the character is in the whitespace class stripped by
`String.prototype.trim` (the ASCII part plus no-break space and the byte
order mark; the remaining Unicode space separators do not occur in this
pipeline's data). -/
def isJsSpace (c : Char) : Bool :=
  (9 ≤ c.toNat ∧ c.toNat ≤ 13) ∨ c = ' ' ∨ c.toNat = 160 ∨ c.toNat = 65279

/-- Whether `s.trim()` is falsy, i.e. every character of `s` is
whitespace (in particular when `s` is empty). -/
def isBlank (s : String) : Bool :=
  s.data.all isJsSpace

/-- Per-chunk processing of the client stream viewer: decode the chunk,
split it on line feeds, and keep the fragments whose trimmed text is
non-empty (`text.split("\n").filter((msg) => msg.trim())`). -/
def processChunk (chunk : String) : List String :=
  ((splitOnChar '\n' chunk.data).map String.mk).filter fun m => ¬ isBlank m

/-- Embedding of the viewer's read loop (`startStreaming` /`startAct` in
`StreamViewer`): starting from the empty display list, append each
arriving chunk's fragments in order until end-of-stream. -/
def streamViewerRun (chunks : List String) : List String :=
  chunks.foldl (fun prev text => prev ++ processChunk text) []

theorem foldl_append_processChunk (chunks acc : List String) :
    chunks.foldl (fun prev text => prev ++ processChunk text) acc =
      acc ++ chunks.flatMap processChunk := by
  induction chunks generalizing acc with
  | nil => simp
  | cons c cs ih => simp [ih]

/-- C8: every GET of the demo route enqueues exactly the five literal
messages, each newline-terminated, in order, and the single close of the
controller is the final operation; no other payload is emitted. -/
theorem claim_C8_demo_route_stream :
    demoStart.filterMap ChannelOp.payload =
      ["Hello\n", "This is\n", "a streaming\n", "response\n", "from Next.js!\n"] ∧
    demoStart.getLast? = some .close ∧
    (demoStart.filter ChannelOp.isClose).length = 1 := by
  refine ⟨rfl, rfl, rfl⟩

/-- C9: the viewer's display list is exactly the concatenation, in
arrival order, of each chunk's independently split non-blank fragments;
in particular a line straddling a chunk boundary yields two entries
(`["Hel", "lo\n"]` renders as two lines where the reassembled body
`["Hello\n"]` renders as one). -/
theorem claim_C9_viewer_per_chunk_split :
    (∀ chunks : List String, streamViewerRun chunks = chunks.flatMap processChunk) ∧
    streamViewerRun ["Hel", "lo\n"] = ["Hel", "lo"] ∧
    streamViewerRun ["Hello\n"] = ["Hello"] := by
  refine ⟨fun chunks => ?_, by rfl, by rfl⟩
  simpa using foldl_append_processChunk chunks []

/-- C4: calling `ActionLogger.log` on a freshly constructed (never
attached) relay always throws the `"ActionLogger not initialized"` error,
enqueues nothing, and leaves the retained sequence unchanged. -/
theorem claim_C4_log_before_attach_fails (now : String) (l : LogLine) :
    LoggerState.log now l LoggerState.new = (LoggerState.new, some .notInitialized) := by
  rfl

/-- C1 counterexample: a run of the scripted act route whose `goto` step
rejects is a failing run on which the controller is never closed — the
rejection propagates out of the `start` callback and the stream ends
errored, refuting the claim that every failing run catches the error and
closes the controller. -/
theorem claim_C1_counterexample :
    actRouteRun ⟨.ok, .err "goto failed", .ok, .ok⟩ = .errored "goto failed" ∧
    actRouteRun ⟨.ok, .err "goto failed", .ok, .ok⟩ ≠ .closed := by
  refine ⟨rfl, by decide⟩

/-- C1 amended: the scripted act route catches nothing: the controller is
closed exactly on the runs where all four scripted steps (engine
initialization, navigate, act, extract) succeed, and a run with any
failing step leaves the stream errored by the uncaught rejection instead
of closed. -/
theorem claim_C1_amended (s : ActScript) :
    actRouteRun s = .closed ↔ s = ⟨.ok, .ok, .ok, .ok⟩ := by
  obtain ⟨i, g, a, e⟩ := s
  cases i <;> cases g <;> cases a <;> cases e <;> simp [actRouteRun]

/-- C2 counterexample: an event with one well-formed auxiliary entry and
one `"object"`-tagged entry whose value is malformed JSON is not retained
at all — `parseLogLine` throws and `ActionLogger.log` records none of the
event's fields, refuting the claim that the rest of the event is still
recorded. -/
theorem claim_C2_counterexample :
    (LoggerState.log "T"
        ⟨some "T", "action", "step",
         some [("good", ⟨"v", "string"⟩), ("bad", ⟨"not json", "object"⟩)]⟩
        (LoggerState.init LoggerState.new)).1.logs = [] ∧
    (LoggerState.log "T"
        ⟨some "T", "action", "step",
         some [("good", ⟨"v", "string"⟩), ("bad", ⟨"not json", "object"⟩)]⟩
        (LoggerState.init LoggerState.new)).2 =
      some (.parse (.badJson "not json")) := by
  exact ⟨rfl, rfl⟩

/-- C2 amended: a `JSON.parse` failure on one auxiliary entry makes
`parseLogLine` throw, so the whole event is dropped: none of its fields
reach the retained sequence, which is left exactly as it was (previously
retained events, and hence retention of subsequent events, are
unaffected); this holds for `log`, `warn` and `error` alike. -/
theorem claim_C2_amended (now : String) (l : LogLine) (st : LoggerState)
    (e : ParseError) (hp : parseLogLine l = .error e) :
    (LoggerState.log now l st).1.logs = st.logs ∧
    (LoggerState.warn now l st).1.logs = st.logs ∧
    (LoggerState.error now l st).1.logs = st.logs := by
  refine ⟨?_, ?_, ?_⟩
  · unfold LoggerState.log
    split
    · cases hfmt : logLineToString now l with
      | error e2 => simp [hfmt]
      | ok line => simp [hfmt, hp]
    · rfl
  · unfold LoggerState.warn
    cases hfmt : logLineToString now l with
    | error e2 => simp [hfmt]
    | ok line => simp [hfmt, hp]
  · unfold LoggerState.error
    cases hfmt : logLineToString now l with
    | error e2 => simp [hfmt]
    | ok line => simp [hfmt, hp]

/-- C2 witness: on an attached relay that already retains one event, the
malformed event leaves the retained sequence exactly `[prior]` through
`log`, `warn` and `error`. -/
theorem claim_C2_witness :
    parseLogLine
        ⟨some "T", "action", "step",
         some [("good", ⟨"v", "string"⟩), ("bad", ⟨"not json", "object"⟩)]⟩ =
      .error (.badJson "not json") ∧
    (LoggerState.log "T"
        ⟨some "T", "action", "step",
         some [("good", ⟨"v", "string"⟩), ("bad", ⟨"not json", "object"⟩)]⟩
        ⟨true, true, true, [⟨some "S", "action", "prior", none, none⟩], ["p\n"]⟩).1.logs =
      [⟨some "S", "action", "prior", none, none⟩] ∧
    (LoggerState.warn "T"
        ⟨some "T", "action", "step",
         some [("good", ⟨"v", "string"⟩), ("bad", ⟨"not json", "object"⟩)]⟩
        ⟨true, true, true, [⟨some "S", "action", "prior", none, none⟩], ["p\n"]⟩).1.logs =
      [⟨some "S", "action", "prior", none, none⟩] ∧
    (LoggerState.error "T"
        ⟨some "T", "action", "step",
         some [("good", ⟨"v", "string"⟩), ("bad", ⟨"not json", "object"⟩)]⟩
        ⟨true, true, true, [⟨some "S", "action", "prior", none, none⟩], ["p\n"]⟩).1.logs =
      [⟨some "S", "action", "prior", none, none⟩] := by
  have h := claim_C2_amended "T"
    ⟨some "T", "action", "step",
     some [("good", ⟨"v", "string"⟩), ("bad", ⟨"not json", "object"⟩)]⟩
    ⟨true, true, true, [⟨some "S", "action", "prior", none, none⟩], ["p\n"]⟩
    (.badJson "not json") rfl
  exact ⟨rfl, h.1, h.2.1, h.2.2⟩

theorem exceptMap_ok_length {α β ε : Type} (f : α → Except ε β) :
    ∀ (as : List α) (bs : List β), exceptMap f as = .ok bs → bs.length = as.length := by
  intro as
  induction as with
  | nil =>
    intro bs h
    simp [exceptMap] at h
    simp [← h]
  | cons a as ih =>
    intro bs h
    cases hf : f a with
    | error e => simp [exceptMap, hf] at h
    | ok b =>
      cases hr : exceptMap f as with
      | error e => simp [exceptMap, hf, hr] at h
      | ok bs' =>
        simp [exceptMap, hf, hr] at h
        simp [← h, ih bs' hr]

/-- C3 counterexample: an attached relay forwards an event whose
`"object"`-tagged auxiliary value is malformed JSON — the formatted line
is enqueued to the output channel, but the subsequent `parseLogLine`
throws, so nothing is retained: an event reached the output channel
without being appended to the retained sequence, refuting the claimed
equality. -/
theorem claim_C3_counterexample :
    ((LoggerState.log "T"
        ⟨some "T", "nav", "navigating", some [("bad", ⟨"\x7b", "object"⟩)]⟩
        (LoggerState.init LoggerState.new)).1.sent).length = 1 ∧
    (LoggerState.log "T"
        ⟨some "T", "nav", "navigating", some [("bad", ⟨"\x7b", "object"⟩)]⟩
        (LoggerState.init LoggerState.new)).1.logs = [] ∧
    (LoggerState.log "T"
        ⟨some "T", "nav", "navigating", some [("bad", ⟨"\x7b", "object"⟩)]⟩
        (LoggerState.init LoggerState.new)).2 = some (.parse (.badJson "\x7b")) := by
  exact ⟨rfl, rfl, rfl⟩

/-- C3 amended: for any sequence of events each of which both formats and
parses successfully, forwarding them through an attached relay appends
exactly the formatted lines (each with a trailing line feed) to the output
channel and exactly the parsed events to the retained sequence, in
emission order and in one-to-one correspondence; an event whose auxiliary
parse throws is forwarded but not retained (see the counterexample). -/
theorem claim_C3_amended (now : String) (ls : List LogLine) :
    ∀ (st : LoggerState) (lines : List String) (ps : List LogLineAction),
    st.hasController = true → st.hasEncoder = true →
    exceptMap (logLineToString now) ls = .ok lines →
    exceptMap parseLogLine ls = .ok ps →
    (runLog now ls st).logs = st.logs ++ ps ∧
    (runLog now ls st).sent = st.sent ++ lines.map (fun s => s ++ "\n") ∧
    ps.length = ls.length ∧ lines.length = ls.length := by
  induction ls with
  | nil =>
    intro st lines ps hc he hl hp
    simp [exceptMap] at hl hp
    subst hl
    subst hp
    simp [runLog]
  | cons l ls ih =>
    intro st lines ps hc he hl hp
    cases hfmt : logLineToString now l with
    | error e => simp [exceptMap, hfmt] at hl
    | ok line =>
      cases hrest : exceptMap (logLineToString now) ls with
      | error e => simp [exceptMap, hfmt, hrest] at hl
      | ok lines' =>
        cases hparse : parseLogLine l with
        | error e => simp [exceptMap, hparse] at hp
        | ok p =>
          cases hprest : exceptMap parseLogLine ls with
          | error e => simp [exceptMap, hparse, hprest] at hp
          | ok ps' =>
            have hl' : line :: lines' = lines := by
              simpa [exceptMap, hfmt, hrest] using hl
            have hp' : p :: ps' = ps := by
              simpa [exceptMap, hparse, hprest] using hp
            subst hl' hp'
            have hstep : (LoggerState.log now l st).1 =
                { st with sent := st.sent ++ [line ++ "\n"],
                          logs := st.logs ++ [p] } := by
              simp [LoggerState.log, hc, he, hfmt, hparse]
            have hrun : runLog now (l :: ls) st =
                runLog now ls ((LoggerState.log now l st).1) := rfl
            have ih' := ih ((LoggerState.log now l st).1) lines' ps'
              (by rw [hstep]; exact hc) (by rw [hstep]; exact he) hrest hprest
            rw [hstep] at ih'
            rw [hrun, hstep]
            refine ⟨?_, ?_, ?_, ?_⟩
            · rw [ih'.1]; simp
            · rw [ih'.2.1]; simp
            · simp [ih'.2.2.1]
            · simp [ih'.2.2.2]

/-- C3 witness: forwarding two well-formed events through a freshly
attached relay retains exactly their two parsed copies and sends exactly
their two newline-terminated formatted lines, in emission order. -/
theorem claim_C3_witness :
    (runLog "T"
        [⟨some "T", "action", "running act", none⟩,
         ⟨some "T", "action", "done", some [("res", ⟨"\x7b\"a\":1\x7d", "object"⟩)]⟩]
        (LoggerState.init LoggerState.new)).logs =
      [⟨some "T", "action", "running act", none, none⟩,
       ⟨some "T", "action", "done", none, some [("res", .json (.obj [("a", .num 1)]))]⟩] ∧
    (runLog "T"
        [⟨some "T", "action", "running act", none⟩,
         ⟨some "T", "action", "done", some [("res", ⟨"\x7b\"a\":1\x7d", "object"⟩)]⟩]
        (LoggerState.init LoggerState.new)).sent =
      ["T::[stagehand:action] running act \n",
       "T::[stagehand:action] done \x7b\"res\":\x7b\"value\":\"\x7b\\\"a\\\":1\x7d\",\"type\":\"object\"\x7d\x7d\n"] := by
  have h := claim_C3_amended "T"
    [⟨some "T", "action", "running act", none⟩,
     ⟨some "T", "action", "done", some [("res", ⟨"\x7b\"a\":1\x7d", "object"⟩)]⟩]
    (LoggerState.init LoggerState.new)
    ["T::[stagehand:action] running act ",
     "T::[stagehand:action] done \x7b\"res\":\x7b\"value\":\"\x7b\\\"a\\\":1\x7d\",\"type\":\"object\"\x7d\x7d"]
    [⟨some "T", "action", "running act", none, none⟩,
     ⟨some "T", "action", "done", none, some [("res", .json (.obj [("a", .num 1)]))]⟩]
    rfl rfl rfl rfl
  exact ⟨h.1, h.2.1⟩

/-- C5 counterexample: `ActionLogger.warn` on an event whose auxiliary
mapping has an `error` entry but no `trace` entry throws while formatting
and appends nothing, refuting the claim that the warning and error paths
always append the parsed event to the retained sequence. -/
theorem claim_C5_counterexample :
    (LoggerState.warn "T"
        ⟨some "T", "action", "boom", some [("error", ⟨"E", "string"⟩)]⟩
        LoggerState.new).1.logs = [] ∧
    (LoggerState.warn "T"
        ⟨some "T", "action", "boom", some [("error", ⟨"E", "string"⟩)]⟩
        LoggerState.new).2 = some (.format .traceMissing) ∧
    (LoggerState.error "T"
        ⟨some "T", "action", "boom", some [("error", ⟨"E", "string"⟩)]⟩
        LoggerState.new).1.logs = [] := by
  exact ⟨rfl, rfl, rfl⟩

/-- C5 amended: `ActionLogger.warn` and `ActionLogger.error` never write
to the output channel, in any attachment state and on any event (even one
that makes them throw), and they have no attachment precondition; they
append the parsed event to the retained sequence whenever formatting and
parsing succeed (an event on which either throws is not appended — see
the counterexample). -/
theorem claim_C5_amended (now : String) (l : LogLine) (st : LoggerState) :
    (LoggerState.warn now l st).1.sent = st.sent ∧
    (LoggerState.error now l st).1.sent = st.sent ∧
    (∀ (line : String) (p : LogLineAction),
      logLineToString now l = .ok line → parseLogLine l = .ok p →
      (LoggerState.warn now l st).1.logs = st.logs ++ [p] ∧
      (LoggerState.error now l st).1.logs = st.logs ++ [p]) := by
  refine ⟨?_, ?_, ?_⟩
  · unfold LoggerState.warn
    cases hfmt : logLineToString now l with
    | error e => rfl
    | ok line =>
      cases hparse : parseLogLine l with
      | error e => rfl
      | ok p => rfl
  · unfold LoggerState.error
    cases hfmt : logLineToString now l with
    | error e => rfl
    | ok line =>
      cases hparse : parseLogLine l with
      | error e => rfl
      | ok p => rfl
  · intro line p hfmt hparse
    constructor
    · unfold LoggerState.warn
      simp [hfmt, hparse]
    · unfold LoggerState.error
      simp [hfmt, hparse]

/-- C5 witness: on an unattached relay, `warn` and `error` applied to a
well-formed event send nothing and append exactly its parsed copy. -/
theorem claim_C5_witness :
    (LoggerState.warn "T"
        ⟨some "T", "action", "observed", some [("raw", ⟨"x", "string"⟩)]⟩
        LoggerState.new).1.sent = [] ∧
    (LoggerState.warn "T"
        ⟨some "T", "action", "observed", some [("raw", ⟨"x", "string"⟩)]⟩
        LoggerState.new).1.logs =
      [⟨some "T", "action", "observed", none, some [("raw", .str "x")]⟩] ∧
    (LoggerState.error "T"
        ⟨some "T", "action", "observed", some [("raw", ⟨"x", "string"⟩)]⟩
        LoggerState.new).1.logs =
      [⟨some "T", "action", "observed", none, some [("raw", .str "x")]⟩] := by
  have h := claim_C5_amended "T"
    ⟨some "T", "action", "observed", some [("raw", ⟨"x", "string"⟩)]⟩
    LoggerState.new
  have h2 := h.2.2 "T::[stagehand:action] observed \x7b\"raw\":\x7b\"value\":\"x\",\"type\":\"string\"\x7d\x7d"
    ⟨some "T", "action", "observed", none, some [("raw", .str "x")]⟩ rfl rfl
  exact ⟨h.1, h2.1, h2.2⟩

/-- C10: for any event whose auxiliary mapping has an `error` entry but
no `trace` entry, the formatter's unconditional read of the trace entry
fails (the `Option` lookup's failure branch), so `log` (when attached),
`warn` and `error` all throw before enqueuing anything or appending
anything: the state is returned unchanged. -/
theorem claim_C10_trace_read_fails (now : String) (l : LogLine) (st : LoggerState)
    (aux : List (String × AuxEntry)) (e : AuxEntry)
    (haux : l.auxiliary = some aux) (herr : aux.lookup "error" = some e)
    (htr : aux.lookup "trace" = none) :
    logLineToString now l = .error .traceMissing ∧
    (st.hasController = true → st.hasEncoder = true →
      LoggerState.log now l st = (st, some (.format .traceMissing))) ∧
    LoggerState.warn now l st = (st, some (.format .traceMissing)) ∧
    LoggerState.error now l st = (st, some (.format .traceMissing)) := by
  have hfmt : logLineToString now l = .error .traceMissing := by
    simp [logLineToString, haux, herr, htr]
  refine ⟨hfmt, ?_, ?_, ?_⟩
  · intro hc he
    simp [LoggerState.log, hc, he, hfmt]
  · simp [LoggerState.warn, hfmt]
  · simp [LoggerState.error, hfmt]

/-- C10 witness: a concrete error-without-trace event makes the trace
lookup's failure branch fire on an attached relay, and all three
forwarding operations leave the state untouched. -/
theorem claim_C10_witness :
    logLineToString "T"
        ⟨some "T", "action", "failed", some [("error", ⟨"E", "string"⟩), ("k", ⟨"v", "string"⟩)]⟩ =
      .error .traceMissing ∧
    LoggerState.log "T"
        ⟨some "T", "action", "failed", some [("error", ⟨"E", "string"⟩), ("k", ⟨"v", "string"⟩)]⟩
        (LoggerState.init LoggerState.new) =
      (LoggerState.init LoggerState.new, some (.format .traceMissing)) ∧
    LoggerState.warn "T"
        ⟨some "T", "action", "failed", some [("error", ⟨"E", "string"⟩), ("k", ⟨"v", "string"⟩)]⟩
        (LoggerState.init LoggerState.new) =
      (LoggerState.init LoggerState.new, some (.format .traceMissing)) ∧
    LoggerState.error "T"
        ⟨some "T", "action", "failed", some [("error", ⟨"E", "string"⟩), ("k", ⟨"v", "string"⟩)]⟩
        (LoggerState.init LoggerState.new) =
      (LoggerState.init LoggerState.new, some (.format .traceMissing)) := by
  have h := claim_C10_trace_read_fails "T"
    ⟨some "T", "action", "failed", some [("error", ⟨"E", "string"⟩), ("k", ⟨"v", "string"⟩)]⟩
    (LoggerState.init LoggerState.new)
    [("error", ⟨"E", "string"⟩), ("k", ⟨"v", "string"⟩)] ⟨"E", "string"⟩ rfl rfl rfl
  exact ⟨h.1, h.2.1 rfl rfl, h.2.2.1, h.2.2.2⟩

/-- The error-format template as worded by the spec:
`<timestamp>::[<tag>:<category>] <message>\n <error-message>\n
<error-trace>`, as a function of the event and the error and trace
values. -/
def errorFormatLine (now : String) (l : LogLine) (errVal traceVal : String) : String :=
  lineHeader now l ++ "\n " ++ errVal ++ "\n " ++ traceVal

theorem string_append_ne_of_data_ne (p x y : String) (h : x.data ≠ y.data) :
    p ++ x ≠ p ++ y := by
  intro he
  apply h
  have hd : (p ++ x).data = (p ++ y).data := congrArg String.data he
  rw [String.data_append, String.data_append] at hd
  exact List.append_cancel_left hd

/-- C6: an event carrying an `error` auxiliary entry is always formatted
by the error-format template (when the trace entry is present the result
is exactly that template's line) and the produced line is never the
auxiliary-data template's line, however many other auxiliary entries the
event carries. -/
theorem claim_C6_error_template_precedence (now : String) (l : LogLine)
    (aux : List (String × AuxEntry)) (e : AuxEntry)
    (haux : l.auxiliary = some aux) (herr : aux.lookup "error" = some e) :
    (∀ t : AuxEntry, aux.lookup "trace" = some t →
      logLineToString now l = .ok (errorFormatLine now l e.value t.value)) ∧
    (∀ s : String, logLineToString now l = .ok s → s ≠ auxFormatLine now l) := by
  constructor
  · intro t htr
    simp [logLineToString, haux, herr, htr, errorFormatLine]
  · intro s hs
    cases htr : aux.lookup "trace" with
    | none => simp [logLineToString, haux, herr, htr] at hs
    | some t =>
      have hok : logLineToString now l = .ok (errorFormatLine now l e.value t.value) := by
        simp [logLineToString, haux, herr, htr, errorFormatLine]
      rw [hok] at hs
      injection hs with h
      subst h
      have e1 : errorFormatLine now l e.value t.value =
          lineHeader now l ++ ("\n " ++ (e.value ++ ("\n " ++ t.value))) := by
        simp [errorFormatLine, String.append_assoc]
      have e2 : auxFormatLine now l =
          lineHeader now l ++ (" " ++ stringifyAuxiliary aux) := by
        simp [auxFormatLine, haux, String.append_assoc]
      rw [e1, e2]
      apply string_append_ne_of_data_ne
      have d1 : ("\n " ++ (e.value ++ ("\n " ++ t.value))).data =
          '\n' :: ' ' :: (e.value ++ ("\n " ++ t.value)).data := by
        rw [String.data_append]; rfl
      have d2 : (" " ++ stringifyAuxiliary aux).data =
          ' ' :: (stringifyAuxiliary aux).data := by
        rw [String.data_append]; rfl
      rw [d1, d2]
      intro hcontra
      injection hcontra with h1 _
      exact absurd h1 (by decide)

/-- C6 witness: a concrete event with both ordinary auxiliary data and an
error payload formats to exactly the error-format line, which differs
from the auxiliary-data line. -/
theorem claim_C6_witness :
    logLineToString "T"
        ⟨some "T", "action", "boom",
         some [("k", ⟨"v", "string"⟩), ("error", ⟨"E", "string"⟩), ("trace", ⟨"TR", "string"⟩)]⟩ =
      .ok (errorFormatLine "T"
        ⟨some "T", "action", "boom",
         some [("k", ⟨"v", "string"⟩), ("error", ⟨"E", "string"⟩), ("trace", ⟨"TR", "string"⟩)]⟩
        "E" "TR") ∧
    errorFormatLine "T"
        ⟨some "T", "action", "boom",
         some [("k", ⟨"v", "string"⟩), ("error", ⟨"E", "string"⟩), ("trace", ⟨"TR", "string"⟩)]⟩
        "E" "TR" ≠
      auxFormatLine "T"
        ⟨some "T", "action", "boom",
         some [("k", ⟨"v", "string"⟩), ("error", ⟨"E", "string"⟩), ("trace", ⟨"TR", "string"⟩)]⟩ := by
  have h := claim_C6_error_template_precedence "T"
    ⟨some "T", "action", "boom",
     some [("k", ⟨"v", "string"⟩), ("error", ⟨"E", "string"⟩), ("trace", ⟨"TR", "string"⟩)]⟩
    [("k", ⟨"v", "string"⟩), ("error", ⟨"E", "string"⟩), ("trace", ⟨"TR", "string"⟩)]
    ⟨"E", "string"⟩ rfl rfl
  have hok := h.1 ⟨"TR", "string"⟩ rfl
  exact ⟨hok, h.2 _ hok⟩

theorem exceptMap_lookup_pair {ε : Type} (f : AuxEntry → Except ε AuxValue) :
    ∀ (aux : List (String × AuxEntry)) (pa : List (String × AuxValue))
      (k : String) (e : AuxEntry),
    exceptMap (fun kv => (f kv.2).map fun v => (kv.1, v)) aux = .ok pa →
    aux.lookup k = some e →
    ∃ v, f e = .ok v ∧ pa.lookup k = some v := by
  intro aux
  induction aux with
  | nil =>
    intro pa k e h hl
    simp [List.lookup] at hl
  | cons kv rest ih =>
    intro pa k e h hl
    obtain ⟨k1, e1⟩ := kv
    simp only [exceptMap] at h
    cases hf : f e1 with
    | error err =>
      rw [hf] at h
      simp [Except.map] at h
    | ok v1 =>
      rw [hf] at h
      cases hr : exceptMap (fun kv => (f kv.2).map fun v => (kv.1, v)) rest with
      | error err =>
        rw [hr] at h
        simp [Except.map] at h
      | ok pa' =>
        rw [hr] at h
        have hpa : (k1, v1) :: pa' = pa := by
          simpa [Except.map] using h
        subst hpa
        cases hk : (k == k1) with
        | true =>
          have he1 : e1 = e := by simpa [List.lookup, hk] using hl
          subst he1
          exact ⟨v1, hf, by simp [List.lookup, hk]⟩
        | false =>
          have hl' : rest.lookup k = some e := by
            simpa [List.lookup, hk] using hl
          obtain ⟨v, hv, hlv⟩ := ih pa' k e hr hl'
          exact ⟨v, hv, by simp [List.lookup, hk, hlv]⟩

/-- C7: in the retained parsed copy of an event, an auxiliary entry
tagged `"object"` whose raw value is the JSON text for the object with
key `a` mapped to `1` decodes to the native mapping, and an entry with
any other tag and raw value `"x"` is passed through as the literal string
`"x"`. -/
theorem claim_C7_aux_decode (l : LogLine) (aux : List (String × AuxEntry))
    (p : LogLineAction) (k : String) (e : AuxEntry)
    (haux : l.auxiliary = some aux) (hok : parseLogLine l = .ok p)
    (hk : aux.lookup k = some e) :
    ∃ pa, p.parsedAuxiliary = some pa ∧
      (e.type = "object" → e.value = "\x7b\"a\":1\x7d" →
        pa.lookup k = some (.json (.obj [("a", .num 1)]))) ∧
      (e.type ≠ "object" → e.value = "x" → pa.lookup k = some (.str "x")) := by
  cases hm : exceptMap (fun kv => (parseAuxEntry kv.2).map fun v => (kv.1, v)) aux with
  | error err => simp [parseLogLine, haux, hm] at hok
  | ok pa =>
    simp [parseLogLine, haux, hm] at hok
    refine ⟨pa, ?_, ?_, ?_⟩
    · rw [← hok]
    · intro ht hv
      obtain ⟨v, hfv, hlv⟩ := exceptMap_lookup_pair parseAuxEntry aux pa k e hm hk
      have hpe : parseAuxEntry e = .ok (.json (.obj [("a", .num 1)])) := by
        obtain ⟨ev, et⟩ := e
        simp only at ht hv
        subst ht
        subst hv
        rfl
      rw [hpe] at hfv
      injection hfv with hfv'
      subst hfv'
      exact hlv
    · intro ht hv
      obtain ⟨v, hfv, hlv⟩ := exceptMap_lookup_pair parseAuxEntry aux pa k e hm hk
      have hpe : parseAuxEntry e = .ok (.str "x") := by
        simp [parseAuxEntry, ht, hv]
      rw [hpe] at hfv
      injection hfv with hfv'
      subst hfv'
      exact hlv

/-- C7 witness: a concrete event with one `"object"`-tagged entry holding
the JSON text for the object mapping `a` to `1` and one `"string"`-tagged
entry holding `"x"` parses to the native mapping and the literal string
respectively. -/
theorem claim_C7_witness :
    ∃ p pa,
      parseLogLine
          ⟨some "T", "action", "done",
           some [("res", ⟨"\x7b\"a\":1\x7d", "object"⟩), ("raw", ⟨"x", "string"⟩)]⟩ =
        .ok p ∧
      p.parsedAuxiliary = some pa ∧
      pa.lookup "res" = some (.json (.obj [("a", .num 1)])) ∧
      pa.lookup "raw" = some (.str "x") := by
  obtain ⟨pa, hpa, hobj, -⟩ := claim_C7_aux_decode
    ⟨some "T", "action", "done",
     some [("res", ⟨"\x7b\"a\":1\x7d", "object"⟩), ("raw", ⟨"x", "string"⟩)]⟩
    [("res", ⟨"\x7b\"a\":1\x7d", "object"⟩), ("raw", ⟨"x", "string"⟩)]
    ⟨some "T", "action", "done", none,
     some [("res", .json (.obj [("a", .num 1)])), ("raw", .str "x")]⟩
    "res" ⟨"\x7b\"a\":1\x7d", "object"⟩ rfl rfl rfl
  obtain ⟨pa', hpa', -, hstr⟩ := claim_C7_aux_decode
    ⟨some "T", "action", "done",
     some [("res", ⟨"\x7b\"a\":1\x7d", "object"⟩), ("raw", ⟨"x", "string"⟩)]⟩
    [("res", ⟨"\x7b\"a\":1\x7d", "object"⟩), ("raw", ⟨"x", "string"⟩)]
    ⟨some "T", "action", "done", none,
     some [("res", .json (.obj [("a", .num 1)])), ("raw", .str "x")]⟩
    "raw" ⟨"x", "string"⟩ rfl rfl rfl
  rw [hpa] at hpa'
  injection hpa' with hpp
  subst hpp
  exact ⟨_, pa, rfl, hpa, hobj rfl rfl, hstr (by decide) rfl⟩
